import Mathlib

/-!
# Verification of the rckd elected-officials service

A shallow embedding of the repository's two source files:

* `src/main.rs` — the served application: the `PersonDB` / `Person` /
  `NewPerson` data model, the `From<PersonDB> for Person` record mapper,
  and the route handlers `elus`, `get_person_by_email`, `create_person`
  (reached from the `/elus/new` and `/elus/create` aliases).
* `src/db.rs` — the store layer of another revision: `email_exists`,
  `name_exists`, `insert_person`, `elus`, `get_elu_by_email`
  (modelled in namespace `Db`).

Rust strings are embedded as `List Char` (`Str`).  The SQLite table
behind the diesel queries is embedded as a `Conn` carrying the rows in
insertion order, the next autoincrement id, and a `broken` flag that
makes every underlying diesel operation fail (modelling a failing
connection, so that the error paths are expressible).

The `serde_json` codec for `Vec<String>` is embedded concretely:
`serde_json_to_string` emits the exact compact JSON text serde_json
emits (array of strings; the quote and backslash escaped as
two-character escapes, the control characters BS FF LF CR TAB as their
short escapes, the other control characters as `\u00xx`, everything
else verbatim), and `serde_json_from_str` parses a JSON array of
strings the way serde_json does (optional surrounding whitespace, the
full escape set including surrogate-pair `\u` escapes, rejecting raw
control characters inside strings, non-string elements, and trailing
input).
-/

/-- Rust string, embedded as its character sequence. -/
abbrev Str := List Char

/-! ## JSON codec for `Vec<String>` (the serde_json calls in `main.rs`) -/

/-- Lower-case hexadecimal digit character for `n < 16`, as serde_json's
writer emits it. -/
def hexDigit (n : Nat) : Char :=
  if n < 10 then Char.ofNat (48 + n) else Char.ofNat (87 + n)

/-- Hexadecimal value of a digit character, either case, as serde_json's
reader accepts it. -/
def hexVal (c : Char) : Option Nat :=
  if '0' ≤ c ∧ c ≤ '9' then some (c.toNat - 48)
  else if 'a' ≤ c ∧ c ≤ 'f' then some (c.toNat - 87)
  else if 'A' ≤ c ∧ c ≤ 'F' then some (c.toNat - 55)
  else none

/-- Value of a four-hex-digit escape body. -/
def hex4 (a b c d : Char) : Option Nat := do
  let x ← hexVal a
  let y ← hexVal b
  let z ← hexVal c
  let w ← hexVal d
  pure ((((x * 16 + y) * 16 + z) * 16) + w)

/-- Output escaping of one character inside a JSON string, exactly as
serde_json writes it: quote and backslash by a backslash escape, BS FF LF
CR TAB by their short escapes, the remaining control characters as a
`\u00xx` escape, everything else verbatim. -/
def escapeChar (c : Char) : List Char :=
  if c = '"' then ['\\', '"']
  else if c = '\\' then ['\\', '\\']
  else if c = Char.ofNat 8 then ['\\', 'b']
  else if c = Char.ofNat 12 then ['\\', 'f']
  else if c = Char.ofNat 10 then ['\\', 'n']
  else if c = Char.ofNat 13 then ['\\', 'r']
  else if c = Char.ofNat 9 then ['\\', 't']
  else if c.toNat < 0x20 then
    ['\\', 'u', '0', '0', hexDigit (c.toNat / 16), hexDigit (c.toNat % 16)]
  else [c]

/-- Escape a whole string body. -/
def escapeString : List Char → List Char
  | [] => []
  | c :: cs => escapeChar c ++ escapeString cs

/-- A JSON string literal: quote, escaped body, quote. -/
def encodeStringJson (s : Str) : List Char :=
  '"' :: escapeString s ++ ['"']

/-- Continuation of an array body after its first element: a comma before
each further element. -/
def encodeTail : List Str → List Char
  | [] => []
  | s :: ss => ',' :: encodeStringJson s ++ encodeTail ss

/-- A JSON array body: elements separated by commas, no whitespace
(serde_json's compact form). -/
def encodeElems : List Str → List Char
  | [] => []
  | s :: ss => encodeStringJson s ++ encodeTail ss

/-- Model of `serde_json::to_string` on a `Vec<String>`: the exact compact
JSON text. -/
def serde_json_to_string (l : List Str) : Str :=
  '[' :: encodeElems l ++ [']']

/-- Single-character escapes serde_json accepts after a backslash. -/
def unescapeChar (e : Char) : Option Char :=
  if e = '"' then some '"'
  else if e = '\\' then some '\\'
  else if e = '/' then some '/'
  else if e = 'b' then some (Char.ofNat 8)
  else if e = 'f' then some (Char.ofNat 12)
  else if e = 'n' then some (Char.ofNat 10)
  else if e = 'r' then some (Char.ofNat 13)
  else if e = 't' then some (Char.ofNat 9)
  else none

/-- Decode a `\uXXXX` escape body (the input starts after the `\u`):
four hex digits, with a high surrogate requiring an immediately following
`\uXXXX` low surrogate (combined into the supplementary code point) and a
lone surrogate rejected, as serde_json does. -/
def parseUEscape (l : List Char) : Option (Char × List Char) :=
  match l with
  | h1 :: h2 :: h3 :: h4 :: rest =>
    match hex4 h1 h2 h3 h4 with
    | none => none
    | some n =>
      if n < 0xD800 ∨ 0xDFFF < n then some (Char.ofNat n, rest)
      else if n < 0xDC00 then
        match rest with
        | b1 :: b2 :: g1 :: g2 :: g3 :: g4 :: rest2 =>
          if b1 = '\\' ∧ b2 = 'u' then
            match hex4 g1 g2 g3 g4 with
            | none => none
            | some m =>
              if 0xDC00 ≤ m ∧ m ≤ 0xDFFF then
                some (Char.ofNat (0x10000 + (n - 0xD800) * 0x400 + (m - 0xDC00)), rest2)
              else none
          else none
        | _ => none
      else none
  | _ => none

/-- Decode one escape sequence (the input starts after the backslash). -/
def parseEscape (l : List Char) : Option (Char × List Char) :=
  match l with
  | [] => none
  | e :: rest =>
    if e = 'u' then parseUEscape rest
    else (unescapeChar e).map (fun d => (d, rest))

theorem parseUEscape_length {l : List Char} {d : Char} {r : List Char}
    (h : parseUEscape l = some (d, r)) : r.length < l.length := by
  unfold parseUEscape at h
  repeat' split at h
  all_goals simp_all
  all_goals omega

theorem parseEscape_length {l : List Char} {d : Char} {r : List Char}
    (h : parseEscape l = some (d, r)) : r.length < l.length := by
  unfold parseEscape at h
  split at h
  · exact absurd h (by simp)
  · rename_i e rest
    split at h
    · have := parseUEscape_length h
      simp only [List.length_cons]
      omega
    · simp only [Option.map_eq_some'] at h
      obtain ⟨d2, hd2, h2⟩ := h
      obtain ⟨rfl, rfl⟩ := Prod.mk.injEq .. ▸ h2
      simp

/-- Parse a JSON string body after the opening quote, as serde_json does:
ends at an unescaped quote, accepts the escapes via `parseEscape`, rejects
raw control characters.  Returns the decoded body and the rest of the
input. -/
def parseStringBody (l : List Char) : Option (List Char × List Char) :=
  match l with
  | [] => none
  | c :: rest =>
    if c = '"' then some ([], rest)
    else if c = '\\' then
      match h : parseEscape rest with
      | none => none
      | some (d, rest1) => (parseStringBody rest1).map (fun p => (d :: p.1, p.2))
    else if c.toNat < 0x20 then none
    else (parseStringBody rest).map (fun p => (c :: p.1, p.2))
termination_by l.length
decreasing_by
  · have := parseEscape_length h
    simp only [List.length_cons]
    omega
  · simp only [List.length_cons]
    omega

/-- JSON whitespace, as serde_json skips it between tokens. -/
def isJsonWs (c : Char) : Bool :=
  c = ' ' || c = Char.ofNat 9 || c = Char.ofNat 10 || c = Char.ofNat 13

/-- Skip leading JSON whitespace. -/
def skipWs : List Char → List Char
  | [] => []
  | c :: r => if isJsonWs c then skipWs r else c :: r

theorem skipWs_length_le : ∀ l : List Char, (skipWs l).length ≤ l.length := by
  intro l
  induction l with
  | nil => simp [skipWs]
  | cons c r ih =>
    rw [skipWs]
    split
    · exact Nat.le_succ_of_le ih
    · exact Nat.le_refl _

/-- Parse the continuation of a JSON array after one parsed element:
either the closing bracket, or a comma, a string element and recursively a
further continuation.  The fuel argument only bounds the recursion; any
fuel beyond the input length is enough, and the callers pass more. -/
def parseElemsRestF : Nat → List Char → Option (List Str × List Char)
  | 0, _ => none
  | fuel + 1, l =>
    match skipWs l with
    | ']' :: r => some ([], r)
    | ',' :: r =>
      match skipWs r with
      | '"' :: r2 =>
        match parseStringBody r2 with
        | some (s, rest) =>
          match parseElemsRestF fuel rest with
          | some (ss, fin) => some (s :: ss, fin)
          | none => none
        | none => none
      | _ => none
    | _ => none

/-- Model of `serde_json::from_str` at `Vec<String>`: whitespace, an
opening bracket, an optional comma-separated run of JSON strings, the
closing bracket, trailing whitespace, end of input.  `none` models a
`serde_json::Error`. -/
def serde_json_from_str (l : Str) : Option (List Str) :=
  match skipWs l with
  | '[' :: r =>
    match skipWs r with
    | ']' :: r2 => if skipWs r2 = [] then some [] else none
    | '"' :: r2 =>
      match parseStringBody r2 with
      | some (s, rest) =>
        match parseElemsRestF (rest.length + 1) rest with
        | some (ss, fin) => if skipWs fin = [] then some (s :: ss) else none
        | none => none
      | none => none
    | _ => none
  | _ => none

/-! ## Codec round-trip -/

theorem hexVal_hexDigit : ∀ x < 16, hexVal (hexDigit x) = some x := by decide

theorem parseStringBody_backslash (rest : List Char) (d : Char) (rest1 : List Char)
    (h : parseEscape rest = some (d, rest1)) :
    parseStringBody ('\\' :: rest) = (parseStringBody rest1).map (fun p => (d :: p.1, p.2)) := by
  rw [parseStringBody]
  rw [if_neg (by decide : ¬('\\' = '"')), if_pos (rfl : '\\' = '\\')]
  split
  · rename_i heq
    simp [h] at heq
  · rename_i d2 r2 heq
    rw [h] at heq
    injection heq with heq2
    injection heq2 with hd hr
    subst hd
    subst hr
    rfl

theorem parseStringBody_escapeString (s : List Char) (rest : List Char) :
    parseStringBody (escapeString s ++ '"' :: rest) = some (s, rest) := by
  induction s generalizing rest with
  | nil =>
    rw [escapeString, List.nil_append, parseStringBody]
    simp
  | cons c cs ih =>
    rw [escapeString, List.append_assoc]
    by_cases h1 : c = '"'
    · subst h1
      rw [show escapeChar '"' = ['\\', '"'] from by decide]
      simp only [List.cons_append, List.nil_append]
      have hpe : parseEscape ('"' :: (escapeString cs ++ '"' :: rest))
          = some ('"', escapeString cs ++ '"' :: rest) := by
        simp [parseEscape, unescapeChar]
      rw [parseStringBody_backslash _ _ _ hpe, ih]
      rfl
    by_cases h2 : c = '\\'
    · subst h2
      rw [show escapeChar '\\' = ['\\', '\\'] from by decide]
      simp only [List.cons_append, List.nil_append]
      have hpe : parseEscape ('\\' :: (escapeString cs ++ '"' :: rest))
          = some ('\\', escapeString cs ++ '"' :: rest) := by
        simp [parseEscape, unescapeChar]
      rw [parseStringBody_backslash _ _ _ hpe, ih]
      rfl
    by_cases h3 : c = Char.ofNat 8
    · subst h3
      rw [show escapeChar (Char.ofNat 8) = ['\\', 'b'] from by decide]
      simp only [List.cons_append, List.nil_append]
      have hpe : parseEscape ('b' :: (escapeString cs ++ '"' :: rest))
          = some (Char.ofNat 8, escapeString cs ++ '"' :: rest) := by
        simp [parseEscape, unescapeChar]
      rw [parseStringBody_backslash _ _ _ hpe, ih]
      rfl
    by_cases h4 : c = Char.ofNat 12
    · subst h4
      rw [show escapeChar (Char.ofNat 12) = ['\\', 'f'] from by decide]
      simp only [List.cons_append, List.nil_append]
      have hpe : parseEscape ('f' :: (escapeString cs ++ '"' :: rest))
          = some (Char.ofNat 12, escapeString cs ++ '"' :: rest) := by
        simp [parseEscape, unescapeChar]
      rw [parseStringBody_backslash _ _ _ hpe, ih]
      rfl
    by_cases h5 : c = Char.ofNat 10
    · subst h5
      rw [show escapeChar (Char.ofNat 10) = ['\\', 'n'] from by decide]
      simp only [List.cons_append, List.nil_append]
      have hpe : parseEscape ('n' :: (escapeString cs ++ '"' :: rest))
          = some (Char.ofNat 10, escapeString cs ++ '"' :: rest) := by
        simp [parseEscape, unescapeChar]
      rw [parseStringBody_backslash _ _ _ hpe, ih]
      rfl
    by_cases h6 : c = Char.ofNat 13
    · subst h6
      rw [show escapeChar (Char.ofNat 13) = ['\\', 'r'] from by decide]
      simp only [List.cons_append, List.nil_append]
      have hpe : parseEscape ('r' :: (escapeString cs ++ '"' :: rest))
          = some (Char.ofNat 13, escapeString cs ++ '"' :: rest) := by
        simp [parseEscape, unescapeChar]
      rw [parseStringBody_backslash _ _ _ hpe, ih]
      rfl
    by_cases h7 : c = Char.ofNat 9
    · subst h7
      rw [show escapeChar (Char.ofNat 9) = ['\\', 't'] from by decide]
      simp only [List.cons_append, List.nil_append]
      have hpe : parseEscape ('t' :: (escapeString cs ++ '"' :: rest))
          = some (Char.ofNat 9, escapeString cs ++ '"' :: rest) := by
        simp [parseEscape, unescapeChar]
      rw [parseStringBody_backslash _ _ _ hpe, ih]
      rfl
    by_cases h8 : c.toNat < 0x20
    · rw [show escapeChar c =
          ['\\', 'u', '0', '0', hexDigit (c.toNat / 16), hexDigit (c.toNat % 16)] from by
        simp [escapeChar, h1, h2, h3, h4, h5, h6, h7, h8]]
      simp only [List.cons_append, List.nil_append]
      have hhex : hex4 '0' '0' (hexDigit (c.toNat / 16)) (hexDigit (c.toNat % 16))
          = some c.toNat := by
        rw [hex4]
        rw [show hexVal '0' = some 0 from by decide]
        rw [hexVal_hexDigit _ (by omega), hexVal_hexDigit _ (by omega)]
        simp only [Option.bind_eq_bind, Option.some_bind, Option.pure_def]
        congr 1
        omega
      have hcond : c.toNat < 0xD800 ∨ 0xDFFF < c.toNat := Or.inl (by omega)
      have hpe : parseEscape ('u' :: '0' :: '0' :: hexDigit (c.toNat / 16) ::
          hexDigit (c.toNat % 16) :: (escapeString cs ++ '"' :: rest))
          = some (c, escapeString cs ++ '"' :: rest) := by
        simp [parseEscape, parseUEscape, hhex, hcond, Char.ofNat_toNat]
      rw [parseStringBody_backslash _ _ _ hpe, ih]
      rfl
    · rw [show escapeChar c = [c] from by simp [escapeChar, h1, h2, h3, h4, h5, h6, h7, h8]]
      simp only [List.cons_append, List.nil_append]
      rw [parseStringBody]
      simp [h1, h2, h8, ih]

theorem skipWs_not_ws {c : Char} (h : isJsonWs c = false) (r : List Char) :
    skipWs (c :: r) = c :: r := by
  rw [skipWs, if_neg (by simp [h])]

theorem parseElemsRestF_encodeTail (ss : List Str) :
    ∀ fuel, (encodeTail ss).length < fuel →
    parseElemsRestF fuel (encodeTail ss ++ [']']) = some (ss, []) := by
  induction ss with
  | nil =>
    intro fuel hf
    cases fuel with
    | zero => omega
    | succ f =>
      rw [encodeTail, List.nil_append, parseElemsRestF]
      rw [skipWs_not_ws (by decide)]
      rfl
  | cons s ss ih =>
    intro fuel hf
    cases fuel with
    | zero => omega
    | succ f =>
      rw [encodeTail]
      simp only [List.cons_append, List.append_assoc]
      rw [parseElemsRestF]
      rw [skipWs_not_ws (by decide)]
      simp only [encodeStringJson, List.cons_append, List.append_assoc]
      rw [skipWs_not_ws (by decide)]
      simp only [List.singleton_append, List.nil_append]
      rw [parseStringBody_escapeString s (encodeTail ss ++ [']'])]
      have htail : (encodeTail ss).length < f := by
        rw [encodeTail] at hf
        simp only [List.length_cons, List.length_append, encodeStringJson] at hf
        omega
      simp [ih f htail]

theorem serde_json_roundtrip (l : List Str) :
    serde_json_from_str (serde_json_to_string l) = some l := by
  rw [serde_json_to_string, serde_json_from_str]
  cases l with
  | nil =>
    rw [encodeElems]
    simp [skipWs, isJsonWs]
  | cons s ss =>
    rw [encodeElems]
    simp only [List.cons_append, List.nil_append, List.append_assoc]
    rw [skipWs_not_ws (by decide)]
    simp only [encodeStringJson, List.cons_append, List.append_assoc, List.nil_append]
    rw [skipWs_not_ws (by decide)]
    simp only [List.singleton_append, List.nil_append]
    rw [parseStringBody_escapeString s (encodeTail ss ++ [']'])]
    have hrt := parseElemsRestF_encodeTail ss ((encodeTail ss).length + 1 + 1) (by omega)
    simp [hrt, skipWs]

/-! ## Data model (main.rs lines 14-50) -/

/-- The persisted row shape (main.rs `PersonDB`, diesel `Queryable` on the
`elus` table): id, name, email, and the mandates JSON text blob. -/
structure PersonDB where
  id : Int
  name : Str
  email : Str
  mandates : Str
deriving DecidableEq

/-- The external representation (main.rs `Person`): mandates as a
structured ordered list of strings. -/
structure Person where
  name : Str
  email : Str
  mandates : List Str
deriving DecidableEq

/-- The insertable row shape (main.rs `NewPerson`): no id, the store
assigns it. -/
structure NewPerson where
  name : Str
  email : Str
  mandates : Str
deriving DecidableEq

/-- The rocket `Status` values the handlers produce. -/
inductive Status where
  | conflict
  | notFound
  | internalServerError
deriving DecidableEq

/-- A diesel query error: `NotFound` (no row) or any other failure. -/
inductive DbError where
  | notFound
  | other
deriving DecidableEq

/-- The SQLite table behind the mutex-guarded connection: rows in
insertion order, the next autoincrement id, and a `broken` flag modelling
a failing connection (every diesel call on a broken connection returns a
non-`NotFound` error). -/
structure Conn where
  rows : List PersonDB
  nextId : Int
  broken : Bool
deriving DecidableEq

/-- Diesel `elus.filter(pred).select(...).first(conn)`: the first matching
row, `Err(NotFound)` when none matches, another error when the
connection fails. -/
def dieselFirst (pred : PersonDB → Bool) (conn : Conn) : Except DbError PersonDB :=
  if conn.broken then .error .other
  else
    match conn.rows.find? pred with
    | some r => .ok r
    | none => .error .notFound

/-- Diesel `elus.select(...).load(conn)`: every row, in insertion order. -/
def dieselLoad (conn : Conn) : Except DbError (List PersonDB) :=
  if conn.broken then .error .other
  else .ok conn.rows

/-- Diesel `insert_into(elus).values(&new_person).execute(conn)`: appends
a row with the autoincrement id.  The schema's UNIQUE constraint on
`email` (main.rs test migration, lines 176-183) makes a duplicate email a
write error. -/
def dieselInsertExec (np : NewPerson) (conn : Conn) : Except DbError Conn :=
  if conn.broken then .error .other
  else if conn.rows.any (fun r => r.email == np.email) then .error .other
  else .ok ⟨conn.rows ++ [⟨conn.nextId, np.name, np.email, np.mandates⟩],
    conn.nextId + 1, conn.broken⟩

/-- The record mapper, `impl From<PersonDB> for Person` (main.rs 32-42):
name and email carried over, the mandates blob decoded, a decode failure
silently replaced by the empty list (`unwrap_or_else(|_| vec![])`). -/
def personFromDB (person : PersonDB) : Person :=
  { name := person.name
    email := person.email
    mandates := (serde_json_from_str person.mandates).getD [] }

/-! ## Route handlers (main.rs lines 67-155) -/

/-- Handler for GET /elus (main.rs `elus`, lines 67-82).  The source calls
`.load(..).expect("Error loading persons")`: `none` models that panic on
a load error; there is no error-status path in this handler. -/
def elus (db : Conn) : Option (List Person) :=
  match dieselLoad db with
  | .ok results => some (results.map personFromDB)
  | .error _ => none

/-- Handler for GET /elus/<search_email> (main.rs `get_person_by_email`,
lines 84-96).  The source ends the query with `.ok()?`, so every query
failure — missing row or connection failure alike — becomes `None`,
which rocket renders as 404. -/
def get_person_by_email (search_email : Str) (db : Conn) : Option Person :=
  match dieselFirst (fun r => r.email == search_email) db with
  | .ok result => some (personFromDB result)
  | .error _ => none

/-- Model of `serde_json::to_string(&Vec<String>)` as the `Result` the
source sees.  String and vector serialization cannot fail in serde_json
(errors arise only from failing `Serialize` impls or non-string map
keys, neither of which exists at this type), so the result is always
`Ok` of the encoded text. -/
def serde_json_to_string_result (l : List Str) : Except Unit Str :=
  .ok (serde_json_to_string l)

/-- Rust `Result::unwrap()`: `none` models the panic on an error value. -/
def unwrapOrPanic {α : Type} : Except Unit α → Option α
  | .ok a => some a
  | .error _ => none

/-- The create-person orchestration (main.rs `create_person`, lines
108-155), reached unchanged from both POST /elus/new and
POST /elus/create (lines 98-106): check email, check name, encode and
insert, re-read by email, map and return.  The result pairs the handler's
`Result<Json<Person>, Status>` with the connection state after the call;
`none` models the `unwrap` panic on the encode step. -/
def create_person (person_data : Person) (db : Conn) :
    Option (Except Status Person × Conn) :=
  let email_exists := (dieselFirst (fun r => r.email == person_data.email) db).isOk
  if email_exists then some (.error .conflict, db)
  else
    let name_exists := (dieselFirst (fun r => r.name == person_data.name) db).isOk
    if name_exists then some (.error .conflict, db)
    else
      match unwrapOrPanic (serde_json_to_string_result person_data.mandates) with
      | none => none
      | some blob =>
        let new_person : NewPerson :=
          { name := person_data.name, email := person_data.email, mandates := blob }
        match dieselInsertExec new_person db with
        | .error _ => some (.error .internalServerError, db)
        | .ok db2 =>
          match dieselFirst (fun r => r.email == person_data.email) db2 with
          | .error _ => some (.error .internalServerError, db2)
          | .ok created => some (.ok (personFromDB created), db2)

/-! ## Store layer of the db.rs revision (db.rs lines 36-90) -/

namespace Db

/-- db.rs `email_exists` (lines 36-44): `.first(connection).is_ok()`, so
every error — including a connection failure — counts as "does not
exist". -/
def email_exists (email_to_check : Str) (connection : Conn) : Bool :=
  (dieselFirst (fun r => r.email == email_to_check) connection).isOk

/-- db.rs `name_exists` (lines 46-54): the same contract keyed on name. -/
def name_exists (name_to_check : Str) (connection : Conn) : Bool :=
  (dieselFirst (fun r => r.name == name_to_check) connection).isOk

/-- db.rs `insert_person` (lines 56-71): any write failure becomes
`InternalServerError`.  The Rust function returns `Result<(), Status>`
and mutates the connection; here the new connection state is returned. -/
def insert_person (person_name person_email person_mandates : Str)
    (connection : Conn) : Except Status Conn :=
  match dieselInsertExec ⟨person_name, person_email, person_mandates⟩ connection with
  | .ok c2 => .ok c2
  | .error _ => .error .internalServerError

/-- db.rs `elus` (lines 73-80): every row, any load failure becoming
`InternalServerError`. -/
def elus (connection : Conn) : Except Status (List PersonDB) :=
  match dieselLoad connection with
  | .ok rs => .ok rs
  | .error _ => .error .internalServerError

/-- db.rs `get_elu_by_email` (lines 82-90): the first row with that email;
`map_err(|_| Status::NotFound)` collapses every failure — missing row or
connection failure alike — to `NotFound`. -/
def get_elu_by_email (email_to_find : Str) (connection : Conn) :
    Except Status PersonDB :=
  match dieselFirst (fun r => r.email == email_to_find) connection with
  | .ok r => .ok r
  | .error _ => .error .notFound

end Db

/-- The create algorithm exactly as the spec words it (for the refinement
claim on the create sequence), composed from the named store primitives
of the db.rs revision: call email-exists with the candidate email, fail
with conflict if true; call name-exists with the candidate name, fail
with conflict if true; encode the mandates and call insert; re-read the
just-inserted record by the candidate email, map it back to the external
shape and return it (a re-read failure surfacing as an internal error,
as the handler maps it). -/
def createPersonSpec (person_data : Person) (db : Conn) :
    Option (Except Status Person × Conn) :=
  if Db.email_exists person_data.email db then some (.error .conflict, db)
  else if Db.name_exists person_data.name db then some (.error .conflict, db)
  else
    match unwrapOrPanic (serde_json_to_string_result person_data.mandates) with
    | none => none
    | some blob =>
      match Db.insert_person person_data.name person_data.email blob db with
      | .error st => some (.error st, db)
      | .ok db2 =>
        match Db.get_elu_by_email person_data.email db2 with
        | .error _ => some (.error .internalServerError, db2)
        | .ok created => some (.ok (personFromDB created), db2)

/-! ## Behaviour of the create path -/

theorem find?_eq_none_of_ne {e : Str} {rows : List PersonDB}
    (he : ∀ r ∈ rows, r.email ≠ e) :
    rows.find? (fun r => r.email == e) = none :=
  List.find?_eq_none.mpr (fun x hx => by simp [he x hx])

theorem find?_name_eq_none_of_ne {n : Str} {rows : List PersonDB}
    (hn : ∀ r ∈ rows, r.name ≠ n) :
    rows.find? (fun r => r.name == n) = none :=
  List.find?_eq_none.mpr (fun x hx => by simp [hn x hx])

theorem create_person_fresh (pd : Person) (db : Conn)
    (hb : db.broken = false)
    (he : ∀ r ∈ db.rows, r.email ≠ pd.email)
    (hn : ∀ r ∈ db.rows, r.name ≠ pd.name) :
    create_person pd db =
      some (.ok ⟨pd.name, pd.email, pd.mandates⟩,
        ⟨db.rows ++ [⟨db.nextId, pd.name, pd.email, serde_json_to_string pd.mandates⟩],
          db.nextId + 1, false⟩) := by
  have hfe := find?_eq_none_of_ne he
  have hfn := find?_name_eq_none_of_ne hn
  have h1 : dieselFirst (fun r => r.email == pd.email) db = .error .notFound := by
    rw [dieselFirst, hb]
    simp [hfe]
  have h2 : dieselFirst (fun r => r.name == pd.name) db = .error .notFound := by
    rw [dieselFirst, hb]
    simp [hfn]
  have hany : db.rows.any (fun r => r.email == pd.email) = false := by
    rw [List.any_eq_false]
    intro x hx
    simp [he x hx]
  have hins : dieselInsertExec ⟨pd.name, pd.email, serde_json_to_string pd.mandates⟩ db
      = .ok ⟨db.rows ++ [⟨db.nextId, pd.name, pd.email, serde_json_to_string pd.mandates⟩],
          db.nextId + 1, false⟩ := by
    rw [dieselInsertExec, hb]
    simp [hany, hb]
  have hre : dieselFirst (fun r => r.email == pd.email)
      ⟨db.rows ++ [⟨db.nextId, pd.name, pd.email, serde_json_to_string pd.mandates⟩],
        db.nextId + 1, false⟩
      = .ok ⟨db.nextId, pd.name, pd.email, serde_json_to_string pd.mandates⟩ := by
    rw [dieselFirst]
    simp [List.find?_append, hfe]
  have hmap : personFromDB ⟨db.nextId, pd.name, pd.email, serde_json_to_string pd.mandates⟩
      = ⟨pd.name, pd.email, pd.mandates⟩ := by
    rw [personFromDB, serde_json_roundtrip]
    rfl
  rw [create_person]
  simp only [h1, h2, hins, hre, hmap, serde_json_to_string_result, unwrapOrPanic]
  rfl

theorem get_person_by_email_after_create (pd : Person) (db : Conn)
    (he : ∀ r ∈ db.rows, r.email ≠ pd.email) :
    get_person_by_email pd.email
      ⟨db.rows ++ [⟨db.nextId, pd.name, pd.email, serde_json_to_string pd.mandates⟩],
        db.nextId + 1, false⟩
      = some ⟨pd.name, pd.email, pd.mandates⟩ := by
  have hfe := find?_eq_none_of_ne he
  have hre : dieselFirst (fun r => r.email == pd.email)
      ⟨db.rows ++ [⟨db.nextId, pd.name, pd.email, serde_json_to_string pd.mandates⟩],
        db.nextId + 1, false⟩
      = .ok ⟨db.nextId, pd.name, pd.email, serde_json_to_string pd.mandates⟩ := by
    rw [dieselFirst]
    simp [List.find?_append, hfe]
  rw [get_person_by_email]
  simp only [hre]
  rw [personFromDB, serde_json_roundtrip]
  rfl

theorem create_person_dup_email (pd : Person) (db : Conn)
    (hb : db.broken = false) (r0 : PersonDB) (hr0 : r0 ∈ db.rows)
    (hre : r0.email = pd.email) :
    create_person pd db = some (.error .conflict, db) := by
  have hsome : (db.rows.find? (fun r => r.email == pd.email)).isSome :=
    List.find?_isSome.mpr ⟨r0, hr0, by simp [hre]⟩
  obtain ⟨r1, hr1⟩ := Option.isSome_iff_exists.mp hsome
  have h1 : dieselFirst (fun r => r.email == pd.email) db = .ok r1 := by
    rw [dieselFirst, hb]
    simp [hr1]
  rw [create_person]
  simp [h1, Except.isOk, Except.toBool]

theorem create_person_dup_name (pd : Person) (db : Conn)
    (hb : db.broken = false)
    (he : ∀ r ∈ db.rows, r.email ≠ pd.email)
    (r0 : PersonDB) (hr0 : r0 ∈ db.rows) (hrn : r0.name = pd.name) :
    create_person pd db = some (.error .conflict, db) := by
  have hfe := find?_eq_none_of_ne he
  have h1 : dieselFirst (fun r => r.email == pd.email) db = .error .notFound := by
    rw [dieselFirst, hb]
    simp [hfe]
  have hsome : (db.rows.find? (fun r => r.name == pd.name)).isSome :=
    List.find?_isSome.mpr ⟨r0, hr0, by simp [hrn]⟩
  obtain ⟨r1, hr1⟩ := Option.isSome_iff_exists.mp hsome
  have h2 : dieselFirst (fun r => r.name == pd.name) db = .ok r1 := by
    rw [dieselFirst, hb]
    simp [hr1]
  rw [create_person]
  simp [h1, h2, Except.isOk, Except.toBool]

/-! ## The claims -/

/-- C1: for every create request whose name and email occur in no record
of the current store (on a working connection), the create operation
succeeds with a record equal to the input, and a subsequent find-by-email
with that email on the resulting store returns a record whose name and
email equal the input and whose mandates list equals the input list in
the same order. -/
theorem claim_c1_create_then_find (pd : Person) (db : Conn)
    (hb : db.broken = false)
    (he : ∀ r ∈ db.rows, r.email ≠ pd.email)
    (hn : ∀ r ∈ db.rows, r.name ≠ pd.name) :
    create_person pd db =
      some (.ok ⟨pd.name, pd.email, pd.mandates⟩,
        ⟨db.rows ++ [⟨db.nextId, pd.name, pd.email, serde_json_to_string pd.mandates⟩],
          db.nextId + 1, false⟩) ∧
    get_person_by_email pd.email
      ⟨db.rows ++ [⟨db.nextId, pd.name, pd.email, serde_json_to_string pd.mandates⟩],
        db.nextId + 1, false⟩
      = some ⟨pd.name, pd.email, pd.mandates⟩ :=
  ⟨create_person_fresh pd db hb he hn, get_person_by_email_after_create pd db he⟩

/-- Witness for C1: a concrete fresh request on the empty store. -/
theorem claim_c1_witness :
    create_person ⟨['a'], ['b'], [['c']]⟩ ⟨[], 1, false⟩ =
      some (.ok ⟨['a'], ['b'], [['c']]⟩,
        ⟨[⟨1, ['a'], ['b'], serde_json_to_string [['c']]⟩], 2, false⟩) ∧
    get_person_by_email ['b']
      ⟨[⟨1, ['a'], ['b'], serde_json_to_string [['c']]⟩], 2, false⟩
      = some ⟨['a'], ['b'], [['c']]⟩ :=
  claim_c1_create_then_find ⟨['a'], ['b'], [['c']]⟩ ⟨[], 1, false⟩ rfl
    (by simp) (by simp)

/-- C2: the create-person operation performs exactly the documented
sequence — email-exists check failing with conflict, name-exists check
failing with conflict, encode and insert, re-read by the candidate email
and map to the external shape — as composed from the named store
primitives in `createPersonSpec`. -/
theorem claim_c2_create_sequence (person_data : Person) (db : Conn) :
    create_person person_data db = createPersonSpec person_data db := by
  rw [create_person, createPersonSpec, Db.email_exists, Db.name_exists]
  by_cases h1 : (dieselFirst (fun r => r.email == person_data.email) db).isOk
  · simp [h1]
  · by_cases h2 : (dieselFirst (fun r => r.name == person_data.name) db).isOk
    · simp [h1, h2]
    · simp only [h1, h2, Bool.false_eq_true, if_false]
      cases hI : dieselInsertExec
          ⟨person_data.name, person_data.email, serde_json_to_string person_data.mandates⟩ db with
      | error e =>
        simp [serde_json_to_string_result, unwrapOrPanic, Db.insert_person, hI]
      | ok db2 =>
        cases hF : dieselFirst (fun r => r.email == person_data.email) db2 with
        | error e =>
          simp [serde_json_to_string_result, unwrapOrPanic, Db.insert_person,
            Db.get_elu_by_email, hI, hF]
        | ok created =>
          simp [serde_json_to_string_result, unwrapOrPanic, Db.insert_person,
            Db.get_elu_by_email, hI, hF]

/-- C3: on a working connection, a create request whose email equals the
email of some existing record fails with conflict, and a create request
whose name equals the name of some existing record — even with a fresh
email — fails with conflict; in both cases the connection state (hence
the stored set of records) is returned unchanged. -/
theorem claim_c3_duplicate_conflicts (pd : Person) (db : Conn)
    (hb : db.broken = false) :
    ((∃ r ∈ db.rows, r.email = pd.email) →
        create_person pd db = some (.error .conflict, db)) ∧
    ((∀ r ∈ db.rows, r.email ≠ pd.email) → (∃ r ∈ db.rows, r.name = pd.name) →
        create_person pd db = some (.error .conflict, db)) := by
  constructor
  · rintro ⟨r0, hr0, hre⟩
    exact create_person_dup_email pd db hb r0 hr0 hre
  · rintro he ⟨r0, hr0, hrn⟩
    exact create_person_dup_name pd db hb he r0 hr0 hrn

/-- Witness for C3: a duplicate email on a one-record store conflicts and
leaves the store unchanged. -/
theorem claim_c3_witness :
    create_person ⟨['x'], ['e'], []⟩ ⟨[⟨1, ['n'], ['e'], ['[', ']']⟩], 2, false⟩
      = some (.error .conflict, ⟨[⟨1, ['n'], ['e'], ['[', ']']⟩], 2, false⟩) :=
  (claim_c3_duplicate_conflicts ⟨['x'], ['e'], []⟩
      ⟨[⟨1, ['n'], ['e'], ['[', ']']⟩], 2, false⟩ rfl).1
    ⟨⟨1, ['n'], ['e'], ['[', ']']⟩, by simp, rfl⟩

/-- C4 counterexample: on a failing connection — a store read failure
that is not a missing record — find-by-email signals NotFound, and
NotFound is a different signal from InternalServerError, so the claimed
distinction between the two failure classes does not exist in the code. -/
theorem claim_c4_counterexample :
    Db.get_elu_by_email ['a'] ⟨[], 1, true⟩ = .error .notFound ∧
    Status.notFound ≠ Status.internalServerError :=
  ⟨rfl, by decide⟩

/-- C4 amended: find-by-email returns a stored record whose email field
matches the queried email exactly (case-sensitive) when the connection
works and a match exists; in every other situation — no matching record
or any read failure — the db.rs operation signals NotFound and the
main.rs handler returns none (404); read failures are not distinguished
from missing records. -/
theorem claim_c4_find_by_email (db : Conn) (e : Str) :
    (∃ r, r ∈ db.rows ∧ r.email = e ∧ db.broken = false ∧
        Db.get_elu_by_email e db = .ok r ∧
        get_person_by_email e db = some (personFromDB r)) ∨
    (Db.get_elu_by_email e db = .error .notFound ∧
        get_person_by_email e db = none) := by
  by_cases hb : db.broken
  · right
    constructor
    · rw [Db.get_elu_by_email, dieselFirst, if_pos hb]
    · rw [get_person_by_email, dieselFirst, if_pos hb]
  · cases hf : db.rows.find? (fun r => r.email == e) with
    | none =>
      right
      constructor
      · rw [Db.get_elu_by_email, dieselFirst, if_neg hb, hf]
      · rw [get_person_by_email, dieselFirst, if_neg hb, hf]
    | some r =>
      left
      refine ⟨r, List.mem_of_find?_eq_some hf, ?_, by simpa using hb, ?_, ?_⟩
      · have := List.find?_some hf
        simpa using this
      · rw [Db.get_elu_by_email, dieselFirst, if_neg hb, hf]
      · rw [get_person_by_email, dieselFirst, if_neg hb, hf]

/-- C5: encoding any list of strings into the mandates blob and decoding
the blob reproduces the original list, element for element and in the
same order (no string value breaks the encoding, so no proviso is
needed). -/
theorem claim_c5_roundtrip : ∀ l : List Str,
    serde_json_from_str (serde_json_to_string l) = some l :=
  serde_json_roundtrip

/-- C6: a mandates blob on which decoding fails is mapped by the
persisted-to-external mapping to the empty mandates list, with name and
email untouched; the mapping is total, so no decode error ever reaches a
caller. -/
theorem claim_c6_decode_failure_empty (p : PersonDB)
    (h : serde_json_from_str p.mandates = none) :
    personFromDB p = { name := p.name, email := p.email, mandates := [] } := by
  rw [personFromDB, h]
  rfl

/-- Witness for C6 at a concrete non-JSON blob. -/
theorem claim_c6_witness :
    personFromDB ⟨1, ['n'], ['e'], ['x']⟩
      = { name := ['n'], email := ['e'], mandates := ([] : List Str) } :=
  claim_c6_decode_failure_empty ⟨1, ['n'], ['e'], ['x']⟩ rfl

/-- C7 counterexample: on a failing connection the served list-all
handler of main.rs runs into its expect call and panics — the `none`
value here — rather than producing the internal-error signal itself. -/
theorem claim_c7_counterexample : elus ⟨[], 1, true⟩ = none := rfl

/-- C7 amended: when the underlying store read fails, the db.rs
store-layer list-all returns the internal-error signal (500), while the
served main.rs handler panics on its expect (modelled by none). -/
theorem claim_c7_list_all_failure (db : Conn) (hb : db.broken = true) :
    Db.elus db = .error .internalServerError ∧ elus db = none := by
  constructor
  · rw [Db.elus, dieselLoad, if_pos hb]
  · rw [elus, dieselLoad, if_pos hb]

/-- Witness for the amended C7 at a concrete failing connection. -/
theorem claim_c7_witness :
    Db.elus ⟨[⟨1, ['n'], ['e'], ['[', ']']⟩], 2, true⟩ = .error .internalServerError ∧
    elus ⟨[⟨1, ['n'], ['e'], ['[', ']']⟩], 2, true⟩ = none :=
  claim_c7_list_all_failure ⟨[⟨1, ['n'], ['e'], ['[', ']']⟩], 2, true⟩ rfl

/-- C8 counterexample: from the empty store — a reachable state — a
create whose name and email are both the empty string succeeds and
persists a record whose name and email are the empty string, so the
claimed non-emptiness invariant fails. -/
theorem claim_c8_counterexample :
    create_person ⟨[], [], []⟩ ⟨[], 1, false⟩ =
      some (.ok ⟨[], [], []⟩, ⟨[⟨1, [], [], ['[', ']']⟩], 2, false⟩) := rfl

/-- C8 amended: the create operation persists the request's name and
email verbatim — there is no emptiness or format check — so every stored
record's fields are exactly those of the request that created it, the
empty string included; the pre-insert checks keep names and emails
unique, not non-empty. -/
theorem claim_c8_fields_verbatim (pd : Person) (db : Conn)
    (hb : db.broken = false)
    (he : ∀ r ∈ db.rows, r.email ≠ pd.email)
    (hn : ∀ r ∈ db.rows, r.name ≠ pd.name) :
    create_person pd db =
      some (.ok ⟨pd.name, pd.email, pd.mandates⟩,
        ⟨db.rows ++ [⟨db.nextId, pd.name, pd.email, serde_json_to_string pd.mandates⟩],
          db.nextId + 1, false⟩) :=
  create_person_fresh pd db hb he hn

/-- Witness for the amended C8: a create with an empty name succeeds and
stores the empty name verbatim. -/
theorem claim_c8_witness :
    create_person ⟨[], ['e'], []⟩ ⟨[], 5, false⟩ =
      some (.ok ⟨[], ['e'], []⟩,
        ⟨[⟨5, [], ['e'], serde_json_to_string []⟩], 6, false⟩) :=
  claim_c8_fields_verbatim ⟨[], ['e'], []⟩ ⟨[], 5, false⟩ rfl (by simp) (by simp)

/-- C9: encoding the mandates list never fails — the encode result is
always Ok of the encoded text — so the unwrap on the encode step in the
create handler never panics: create never returns the panic marker. -/
theorem claim_c9_encode_total :
    (∀ l : List Str, serde_json_to_string_result l = .ok (serde_json_to_string l)) ∧
    (∀ (pd : Person) (db : Conn), create_person pd db ≠ none) := by
  constructor
  · intro l
    rfl
  · intro pd db
    rw [create_person]
    by_cases h1 : (dieselFirst (fun r => r.email == pd.email) db).isOk
    · simp [h1]
    · by_cases h2 : (dieselFirst (fun r => r.name == pd.name) db).isOk
      · simp [h1, h2]
      · simp only [h1, h2, Bool.false_eq_true, if_false]
        cases hI : dieselInsertExec
            ⟨pd.name, pd.email, serde_json_to_string pd.mandates⟩ db with
        | error e =>
          simp [serde_json_to_string_result, unwrapOrPanic, hI]
        | ok db2 =>
          cases hF : dieselFirst (fun r => r.email == pd.email) db2 with
          | error e =>
            simp [serde_json_to_string_result, unwrapOrPanic, hI, hF]
          | ok created =>
            simp [serde_json_to_string_result, unwrapOrPanic, hI, hF]

/-- C10: the persisted-to-external mapping keeps the name and email
fields byte-for-byte, drops the id — two rows differing only in id map to
the same external record — and transforms only the mandates field,
decoding the blob with the empty-list fallback. -/
theorem claim_c10_mapper_frame : ∀ p : PersonDB,
    (personFromDB p).name = p.name ∧
    (personFromDB p).email = p.email ∧
    (personFromDB p).mandates = (serde_json_from_str p.mandates).getD [] ∧
    (∀ i : Int, personFromDB { p with id := i } = personFromDB p) :=
  fun p => ⟨rfl, rfl, rfl, fun i => rfl⟩
